import Mathlib

/-!
Verification development for the delivery-queue engine of the
social-media-saver repository: a shallow embedding of the queue manager
(src/unnamed/part_009), the conflict resolver (src/unnamed/part_008), the
retry strategy (src/lib/queue/retry-strategy.ts) and the storage layer
(src/lib/storage/indexeddb.ts), together with theorems settling the
frozen claims about them.

Conventions of the embedding:
- JavaScript numbers used for delays and jitter are modelled as rationals
  with Math.floor as Int.floor; Math.random() becomes an explicit
  parameter rand with 0 <= rand < 1.
- Dates are modelled as integers (milliseconds); new Date() / Date.now()
  become an explicit now parameter.
- Queue item ids produced by generateId() are modelled as naturals drawn
  from a fresh-id counter; post and destination ids stay strings.
- The metadata record written by ConflictResolver.resolve is modelled by
  its two concrete fields skippedReason and existingRemoteId.
- Fire-and-forget notification and logging calls have no observable
  effect on the stores and are omitted.
-/

namespace SMS

/-- Queue item status, from the QueueItemStatus union type. -/
inductive QueueItemStatus
  | pending
  | processing
  | completed
  | failed
  | cancelled
  deriving DecidableEq, Repr

/-- Saved post status, from the SavedPostStatus union type.
The source literal "local" is spelled localOnly (local is a keyword). -/
inductive SavedPostStatus
  | pending
  | syncing
  | published
  | failed
  | localOnly
  deriving DecidableEq, Repr

/-- The fields of a SavedPost that the queue engine reads or writes. -/
structure SavedPost where
  id : String
  destination : Option String
  status : SavedPostStatus
  publishedUrl : Option String
  remoteId : Option String
  error : Option String
  updatedAt : Int
  deriving DecidableEq, Repr

structure DestinationStats where
  totalPublished : Nat
  failedCount : Nat
  deriving DecidableEq, Repr

/-- The fields of a Destination that the queue engine reads or writes.
The source field named type is spelled dtype here. -/
structure Destination where
  id : String
  dtype : String
  stats : DestinationStats
  lastSync : Option Int
  updatedAt : Int
  deriving DecidableEq, Repr

/-- A delivery job (QueueItem interface). -/
structure QueueItem where
  id : Nat
  postId : String
  destinationId : String
  status : QueueItemStatus
  priority : Nat
  retryCount : Nat
  maxRetries : Nat
  lastError : Option String
  createdAt : Int
  scheduledFor : Option Int
  startedAt : Option Int
  completedAt : Option Int
  skippedReason : Option String
  existingRemoteId : Option String
  deriving DecidableEq, Repr

/-- The persistent stores (posts, destinations, queue tables). -/
structure Store where
  posts : List SavedPost
  destinations : List Destination
  queue : List QueueItem
  deriving DecidableEq, Repr

/-- storage.getPost. -/
def getPost (s : Store) (id : String) : Option SavedPost :=
  s.posts.find? (fun p => decide (p.id = id))

/-- storage.getDestination. -/
def getDestination (s : Store) (id : String) : Option Destination :=
  s.destinations.find? (fun d => decide (d.id = id))

/-- storage.getQueueItem. -/
def getQueueItem (s : Store) (id : Nat) : Option QueueItem :=
  s.queue.find? (fun it => decide (it.id = id))

/-- storage.updatePost: applies the partial update f to the post with the
given id and stamps updatedAt, as IndexedDBStorage.updatePost does; a
missing id is a no-op (Dexie update semantics). -/
def updatePost (s : Store) (id : String) (f : SavedPost → SavedPost) (now : Int) : Store :=
  { s with posts := s.posts.map (fun p => if p.id = id then { f p with updatedAt := now } else p) }

/-- storage.updateDestination: partial update plus updatedAt stamp. -/
def updateDestination (s : Store) (id : String) (f : Destination → Destination) (now : Int) : Store :=
  { s with destinations :=
      s.destinations.map (fun d => if d.id = id then { f d with updatedAt := now } else d) }

/-- storage.updateQueueItem: applies the partial update f to the queue
item with the given id (no updatedAt field on queue items). -/
def updateQueueItem (s : Store) (id : Nat) (f : QueueItem → QueueItem) : Store :=
  { s with queue := s.queue.map (fun it => if it.id = id then f it else it) }

/-- QueueManager.enqueue: unconditionally adds a fresh job with status
pending, retryCount 0 and maxRetries 3 via storage.enqueueItem and
returns its id.  The processQueue trigger is modelled separately by the
scheduler transition system. -/
def enqueue (s : Store) (postId destinationId : String) (priority : Nat)
    (freshId : Nat) (now : Int) : Store × Nat :=
  ({ s with queue := s.queue ++
      [{ id := freshId, postId := postId, destinationId := destinationId,
         status := QueueItemStatus.pending, priority := priority,
         retryCount := 0, maxRetries := 3, lastError := none,
         createdAt := now, scheduledFor := none, startedAt := none,
         completedAt := none, skippedReason := none, existingRemoteId := none }] },
   freshId)

/-- Eligibility filter of storage.getPendingItems: status pending and
scheduledFor unset or elapsed. -/
def isEligiblePending (now : Int) (it : QueueItem) : Bool :=
  decide (it.status = QueueItemStatus.pending) &&
    (match it.scheduledFor with
     | none => true
     | some t => decide (t ≤ now))

/-- Insertion step for the priority sort used by getPendingItems. -/
def insertByPriorityDesc (x : QueueItem) : List QueueItem → List QueueItem
  | [] => [x]
  | y :: ys => if y.priority ≤ x.priority then x :: y :: ys else y :: insertByPriorityDesc x ys

/-- Sort queue items by priority descending (higher priority first), as
the final sort in storage.getPendingItems does. -/
def sortByPriorityDesc : List QueueItem → List QueueItem
  | [] => []
  | x :: xs => insertByPriorityDesc x (sortByPriorityDesc xs)

/-- storage.getPendingItems: pending items whose scheduledFor is unset or
in the past, highest priority first, truncated to the limit. -/
def getPendingItems (s : Store) (now : Int) (limit : Nat) : List QueueItem :=
  (sortByPriorityDesc (s.queue.filter (isEligiblePending now))).take limit

/-- storage.getFailedItems. -/
def getFailedItems (s : Store) : List QueueItem :=
  s.queue.filter (fun it => decide (it.status = QueueItemStatus.failed))

/-- Retry strategy configuration (RetryConfig interface); numeric fields
are rationals. -/
structure RetryConfig where
  maxRetries : Nat
  baseDelay : ℚ
  maxDelay : ℚ
  backoffMultiplier : ℚ
  jitterPercent : ℚ
  deriving DecidableEq, Repr

/-- DEFAULT_RETRY_CONFIG from the types module (0.2 = 1/5). -/
def DEFAULT_RETRY_CONFIG : RetryConfig :=
  { maxRetries := 3, baseDelay := 1000, maxDelay := 300000,
    backoffMultiplier := 2, jitterPercent := 1/5 }

/-- The exponentialDelay local of calculateRetryDelay:
baseDelay * backoffMultiplier ^ attemptNumber. -/
def exponentialDelay (config : RetryConfig) (attemptNumber : Nat) : ℚ :=
  config.baseDelay * config.backoffMultiplier ^ attemptNumber

/-- The cappedDelay local of calculateRetryDelay:
min(exponentialDelay, maxDelay). -/
def cappedDelay (config : RetryConfig) (attemptNumber : Nat) : ℚ :=
  min (exponentialDelay config attemptNumber) config.maxDelay

/-- The jitter local of calculateRetryDelay:
(Math.random() - 0.5) * 2 * (cappedDelay * jitterPercent), with
Math.random() as the parameter rand. -/
def jitterOf (config : RetryConfig) (attemptNumber : Nat) (rand : ℚ) : ℚ :=
  (rand - 1/2) * 2 * (cappedDelay config attemptNumber * config.jitterPercent)

/-- calculateRetryDelay from retry-strategy.ts:
Math.floor(cappedDelay + jitter). -/
def calculateRetryDelay (attemptNumber : Nat) (config : RetryConfig) (rand : ℚ) : Int :=
  Int.floor (cappedDelay config attemptNumber + jitterOf config attemptNumber rand)

/-- A JavaScript Error value as consulted by shouldRetry. -/
structure JsError where
  name : String
  message : String
  deriving DecidableEq, Repr

/-- Character-list prefix test, part of the substring model. -/
def isPrefixChars : List Char → List Char → Bool
  | [], _ => true
  | _ :: _, [] => false
  | a :: as, b :: bs => a == b && isPrefixChars as bs

/-- Character-list substring scan. -/
def hasSubstrChars : List Char → List Char → Bool
  | [], pat => pat.isEmpty
  | c :: cs, pat => isPrefixChars pat (c :: cs) || hasSubstrChars cs pat

/-- String.prototype.includes, modelled on the character lists. -/
def containsSubstr (s pat : String) : Bool :=
  hasSubstrChars s.data pat.data

/-- String.prototype.toLowerCase, modelled character by character. -/
def jsToLower (s : String) : String :=
  String.mk (s.data.map Char.toLower)

/-- shouldRetry from retry-strategy.ts: false once attemptNumber reaches
maxRetries, on the four non-retryable error names, and on messages
mentioning the HTTP codes 401, 403, 404 or 422. -/
def shouldRetry (attemptNumber : Nat) (error : JsError) (config : RetryConfig) : Bool :=
  if config.maxRetries ≤ attemptNumber then false
  else if ["AuthenticationError", "AuthorizationError", "ValidationError",
           "NotFoundError"].contains error.name then false
  else
    let errorMessage := jsToLower error.message
    if containsSubstr errorMessage "401" || containsSubstr errorMessage "403" ||
       containsSubstr errorMessage "404" || containsSubstr errorMessage "422" then false
    else true

/-- Publish result returned by a publisher (PublishResult interface; the
unused metadata record is omitted). -/
structure PublishResult where
  success : Bool
  publishedUrl : Option String
  remoteId : Option String
  error : Option String
  deriving DecidableEq, Repr

/-- Conflict strategy union type from part_008 (create-new is spelled
createNew). -/
inductive ConflictStrategy
  | skip
  | overwrite
  | createNew
  deriving DecidableEq, Repr

structure ConflictCheckResult where
  hasConflict : Bool
  strategy : ConflictStrategy
  existingRemoteId : Option String
  existingPublishedUrl : Option String
  deriving DecidableEq, Repr

namespace ConflictResolver

/-- ConflictResolver.check: a conflict exists when the post is published
to the same destination with a recorded remote id. -/
def check (s : Store) (defaultStrategy : ConflictStrategy) (item : QueueItem) :
    ConflictCheckResult :=
  match getPost s item.postId with
  | none => { hasConflict := false, strategy := defaultStrategy,
              existingRemoteId := none, existingPublishedUrl := none }
  | some post =>
    if post.status = SavedPostStatus.published ∧
       post.destination = some item.destinationId ∧ post.remoteId.isSome then
      { hasConflict := true, strategy := defaultStrategy,
        existingRemoteId := post.remoteId, existingPublishedUrl := post.publishedUrl }
    else
      { hasConflict := false, strategy := defaultStrategy,
        existingRemoteId := none, existingPublishedUrl := none }

/-- ConflictResolver.resolve: under skip, marks the job completed with a
skippedReason annotation and reports false (do not continue); the other
strategies leave the store unchanged and report true. -/
def resolve (s : Store) (item : QueueItem) (result : ConflictCheckResult) (now : Int) :
    Store × Bool :=
  if !result.hasConflict then (s, true)
  else
    match result.strategy with
    | ConflictStrategy.skip =>
      (updateQueueItem s item.id (fun it =>
        { it with status := QueueItemStatus.completed, completedAt := some now,
                  skippedReason := some "duplicate",
                  existingRemoteId := result.existingRemoteId }), false)
    | ConflictStrategy.overwrite => (s, true)
    | ConflictStrategy.createNew => (s, true)

/-- ConflictResolver.isDuplicateEnqueue: scans up to 100 pending items
for the same postId and destinationId pair. -/
def isDuplicateEnqueue (s : Store) (now : Int) (postId destinationId : String) : Bool :=
  (getPendingItems s now 100).any
    (fun qi => decide (qi.postId = postId) && decide (qi.destinationId = destinationId))

end ConflictResolver

/-- QueueManager.handleError: increments the snapshot retryCount; at or
above maxRetries marks the job and its post failed, otherwise schedules a
retry with a delay from RetryStrategy.getDelay (the default config) and
returns the job to pending.  Never consults shouldRetry. -/
def handleError (s : Store) (item : QueueItem) (errMsg : String) (rand : ℚ) (now : Int) :
    Store :=
  if item.maxRetries ≤ item.retryCount + 1 then
    updatePost
      (updateQueueItem s item.id (fun it =>
        { it with status := QueueItemStatus.failed, lastError := some errMsg,
                  retryCount := item.retryCount + 1 }))
      item.postId
      (fun p => { p with status := SavedPostStatus.failed, error := some errMsg }) now
  else
    updateQueueItem s item.id (fun it =>
      { it with status := QueueItemStatus.pending, retryCount := item.retryCount + 1,
                lastError := some errMsg,
                scheduledFor := some (now +
                  calculateRetryDelay (item.retryCount + 1) DEFAULT_RETRY_CONFIG rand) })

/-- A publisher factory: maps a destination to a publisher whose publish
method is modelled as a pure outcome function. -/
def PublisherFactory : Type := SavedPost → Destination → PublishResult

/-- QueueManager.publishContent: without a factory, a local-indexeddb
destination trivially succeeds and anything else throws; with a factory,
the publisher for the destination is invoked. -/
def publishContent (factory : Option PublisherFactory) (post : SavedPost)
    (destination : Destination) : Except String PublishResult :=
  match factory with
  | none =>
    if destination.dtype = "local-indexeddb" then
      Except.ok { success := true, publishedUrl := none, remoteId := none, error := none }
    else
      Except.error "Publisher factory not configured"
  | some f => Except.ok (f post destination)

/-- The body of QueueManager.processItem after its initial status write:
resolve post and destination, publish, and apply the success updates or
delegate to handleError.  The destination stats update uses the fetched
snapshot, as the source does. -/
def runItemBody (factory : Option PublisherFactory) (rand : ℚ) (now : Int)
    (s : Store) (item : QueueItem) : Store :=
  match getPost s item.postId with
  | none => handleError s item ("Post not found: " ++ item.postId) rand now
  | some post =>
    match getDestination s item.destinationId with
    | none => handleError s item ("Destination not found: " ++ item.destinationId) rand now
    | some destination =>
      match publishContent factory post destination with
      | Except.error e => handleError s item e rand now
      | Except.ok result =>
        if result.success then
          updateDestination
            (updateQueueItem
              (updatePost s item.postId (fun p =>
                { p with status := SavedPostStatus.published,
                         publishedUrl := result.publishedUrl, remoteId := result.remoteId,
                         destination := some item.destinationId }) now)
              item.id (fun it =>
                { it with status := QueueItemStatus.completed, completedAt := some now }))
            item.destinationId (fun d =>
              { d with lastSync := some now,
                       stats := { totalPublished := destination.stats.totalPublished + 1,
                                  failedCount := destination.stats.failedCount } }) now
        else
          handleError s item (result.error.getD "Unknown publish error") rand now

/-- QueueManager.processItem: marks the job processing with startedAt and
then runs the body.  No conflict-resolver call appears anywhere in it. -/
def processItem (factory : Option PublisherFactory) (rand : ℚ) (now : Int)
    (s : Store) (item : QueueItem) : Store :=
  runItemBody factory rand now
    (updateQueueItem s item.id (fun it =>
      { it with status := QueueItemStatus.processing, startedAt := some now }))
    item

/-- QueueManager.retryItem: errors unless the item exists and is failed;
otherwise resets the job to pending with retryCount 0 and cleared
lastError and scheduledFor, resets the post to pending, and triggers a
scheduling pass (the returned flag). -/
def retryItem (s : Store) (itemId : Nat) (now : Int) : Except String (Store × Bool) :=
  match getQueueItem s itemId with
  | none => Except.error "Item not found or not in failed state"
  | some item =>
    if item.status ≠ QueueItemStatus.failed then
      Except.error "Item not found or not in failed state"
    else
      let s1 := updateQueueItem s itemId (fun it =>
        { it with status := QueueItemStatus.pending, retryCount := 0,
                  lastError := none, scheduledFor := none })
      let s2 := updatePost s1 item.postId (fun p =>
        { p with status := SavedPostStatus.pending, error := none }) now
      Except.ok (s2, true)

/-- JavaScript Math.round for the nonnegative progress ratio. -/
def jsRound (q : ℚ) : Int := Int.floor (q + 1/2)

/-- Insertion step for the completedAt sort in getQueueStatus. -/
def insertByCompletedAt (x : QueueItem) : List QueueItem → List QueueItem
  | [] => [x]
  | y :: ys =>
    if x.completedAt.getD 0 ≤ y.completedAt.getD 0 then x :: y :: ys
    else y :: insertByCompletedAt x ys

/-- Sort by completedAt ascending, modelling the Dexie sortBy call. -/
def sortByCompletedAt : List QueueItem → List QueueItem
  | [] => []
  | x :: xs => insertByCompletedAt x (sortByCompletedAt xs)

/-- Queue status summary (QueueStatus interface, without the manager
overrides). -/
structure QueueStatus where
  pending : Nat
  processing : Nat
  completed : Nat
  failed : Nat
  total : Nat
  progress : Int
  isProcessing : Bool
  isPaused : Bool
  lastProcessedAt : Option Int
  deriving DecidableEq, Repr

/-- storage.getQueueStatus from indexeddb.ts: counts the pending,
processing, completed and failed jobs (cancelled has no count query),
total is their sum, progress is round(completed / total * 100) with 0 for
an empty total, and lastProcessedAt is the completedAt of the latest
completed item. -/
def getQueueStatus (queue : List QueueItem) : QueueStatus :=
  let pending := (queue.filter (fun it => decide (it.status = QueueItemStatus.pending))).length
  let processing := (queue.filter (fun it => decide (it.status = QueueItemStatus.processing))).length
  let completed := (queue.filter (fun it => decide (it.status = QueueItemStatus.completed))).length
  let failed := (queue.filter (fun it => decide (it.status = QueueItemStatus.failed))).length
  let total := pending + processing + completed + failed
  let lastCompleted :=
    (sortByCompletedAt (queue.filter
      (fun it => decide (it.status = QueueItemStatus.completed)))).reverse
  { pending := pending, processing := processing, completed := completed,
    failed := failed, total := total,
    progress := if 0 < total then jsRound ((completed : ℚ) / (total : ℚ) * 100) else 0,
    isProcessing := decide (0 < processing), isPaused := false,
    lastProcessedAt := lastCompleted.head?.bind (fun it => it.completedAt) }

/-- Boolean success test for an Except value (Error.isOk). -/
def isOkB {ε α : Type} : Except ε α → Bool
  | Except.ok _ => true
  | Except.error _ => false

/-- A driver that repeatedly runs processItem on one job, one publisher
outcome per scheduling pass, as the processQueue loop does for a job that
keeps returning to pending: it stops as soon as the job is no longer
pending.  Each pass happens 1000000 ms after the previous one, far past
any retry backoff, so every pass is dispatch-eligible. -/
def runAttempts : List PublishResult → Store → Nat → Int → Store
  | [], s, _, _ => s
  | r :: rest, s, itemId, now =>
    match getQueueItem s itemId with
    | none => s
    | some item =>
      if item.status = QueueItemStatus.pending then
        runAttempts rest (processItem (some (fun _ _ => r)) (1/2) now s item) itemId
          (now + 1000000)
      else s

/-! Concrete fixtures for claim C1: a post already published to the same
destination with remote id 42, a pending job for that pair, and a
publisher that would produce a second remote artifact 43. -/

def c1Post : SavedPost :=
  { id := "p1", destination := some "d1", status := SavedPostStatus.published,
    publishedUrl := some "https://blog.example/42", remoteId := some "42",
    error := none, updatedAt := 0 }

def c1Dest : Destination :=
  { id := "d1", dtype := "wordpress", stats := { totalPublished := 7, failedCount := 0 },
    lastSync := none, updatedAt := 0 }

def c1Job : QueueItem :=
  { id := 0, postId := "p1", destinationId := "d1", status := QueueItemStatus.pending,
    priority := 1, retryCount := 0, maxRetries := 3, lastError := none, createdAt := 0,
    scheduledFor := none, startedAt := none, completedAt := none,
    skippedReason := none, existingRemoteId := none }

def c1Store : Store := { posts := [c1Post], destinations := [c1Dest], queue := [c1Job] }

def c1Factory : PublisherFactory := fun _ _ =>
  { success := true, publishedUrl := some "https://blog.example/43",
    remoteId := some "43", error := none }

/-- Claim C1 (code bug): on a job whose content item is already published
to the destination with remote id 42 under the default skip policy, the
Conflict Resolver does detect the conflict and its skip branch would stop
processing, but QueueManager.processItem never runs it: the job is
published again (the destination counter is bumped from 7 to 8 and the
remote id overwritten to 43) and completed without any skippedReason
annotation, contradicting the claimed skip behaviour. -/
theorem C1_processItem_skips_no_conflict_check :
    (ConflictResolver.check c1Store ConflictStrategy.skip c1Job).hasConflict = true
    ∧ (ConflictResolver.check c1Store ConflictStrategy.skip c1Job).existingRemoteId = some "42"
    ∧ (ConflictResolver.resolve c1Store c1Job
        (ConflictResolver.check c1Store ConflictStrategy.skip c1Job) 5).2 = false
    ∧ (getQueueItem (processItem (some c1Factory) (1/2) 5 c1Store c1Job) 0).map
        (fun it => (it.status, it.skippedReason))
        = some (QueueItemStatus.completed, none)
    ∧ (getPost (processItem (some c1Factory) (1/2) 5 c1Store c1Job) "p1").map
        (fun p => p.remoteId) = some (some "43")
    ∧ (getDestination (processItem (some c1Factory) (1/2) 5 c1Store c1Job) "d1").map
        (fun d => d.stats.totalPublished) = some 8 := by
  refine ⟨rfl, rfl, rfl, ?_, ?_, ?_⟩ <;> decide

/-! Concrete fixtures for claim C2: an unpublished post, one destination,
an empty queue, then two enqueue calls for the same pair. -/

def c2Post : SavedPost :=
  { id := "p1", destination := none, status := SavedPostStatus.pending,
    publishedUrl := none, remoteId := none, error := none, updatedAt := 0 }

def c2Dest : Destination :=
  { id := "d1", dtype := "wordpress", stats := { totalPublished := 0, failedCount := 0 },
    lastSync := none, updatedAt := 0 }

def c2Store : Store := { posts := [c2Post], destinations := [c2Dest], queue := [] }

/-- Claim C2 (code bug): after one enqueue of (p1, d1) the pair is
pending, and ConflictResolver.isDuplicateEnqueue detects exactly that,
but QueueManager.enqueue never consults it: a second enqueue of the same
pair creates a second job, so two pending jobs for (p1, d1) coexist. -/
theorem C2_enqueue_creates_duplicate_job :
    ConflictResolver.isDuplicateEnqueue (enqueue c2Store "p1" "d1" 1 0 0).1 0 "p1" "d1" = true
    ∧ ((enqueue (enqueue c2Store "p1" "d1" 1 0 0).1 "p1" "d1" 1 1 0).1.queue.filter
        (fun it => decide (it.postId = "p1") && decide (it.destinationId = "d1") &&
          (decide (it.status = QueueItemStatus.pending) ||
           decide (it.status = QueueItemStatus.processing)))).length = 2 := by
  constructor <;> decide

/-! Concrete fixtures for claim C3: a pending job whose publisher fails
with an HTTP 404 error. -/

def c3Store : Store := { posts := [c2Post], destinations := [c2Dest], queue := [c1Job] }

def c3Err : JsError := { name := "Error", message := "Request failed with status code 404" }

def c3Factory : PublisherFactory := fun _ _ =>
  { success := false, publishedUrl := none, remoteId := none,
    error := some "Request failed with status code 404" }

/-- Claim C3 (code bug): the Retry Strategy classifies the 404 error as
non-retryable, but QueueManager.handleError never consults shouldRetry:
after the first failed attempt the job is returned to pending with
retryCount 1 and a scheduled retry, instead of failing after exactly one
attempt with retryCount 0. -/
theorem C3_handleError_retries_non_retryable :
    shouldRetry 0 c3Err DEFAULT_RETRY_CONFIG = false
    ∧ (getQueueItem (processItem (some c3Factory) (1/2) 0 c3Store c1Job) 0).map
        (fun it => (it.status, it.retryCount, it.scheduledFor.isSome))
        = some (QueueItemStatus.pending, 1, true) := by
  constructor <;> decide

/-! Concrete fixtures for claim C4: a job with maxRetries 3 whose
publisher fails with a 500 on the first three calls and would succeed on
the fourth. -/

def c4Fail : PublishResult :=
  { success := false, publishedUrl := none, remoteId := none,
    error := some "Request failed with status code 500" }

def c4Succ : PublishResult :=
  { success := true, publishedUrl := some "https://blog.example/77",
    remoteId := some "77", error := none }

/-- Claim C4 (code bug): with maxRetries 3 and a publisher failing three
times before succeeding, QueueManager.handleError marks the job failed
when newRetryCount reaches maxRetries at the third failure, so the fourth
call is never made: the job ends failed with retryCount 3 and the content
item ends failed, not completed and published as claimed (and as the
semantics of RetryStrategy.execute, which allows maxRetries + 1 calls,
would give). -/
theorem C4_fourth_attempt_never_made :
    (getQueueItem (runAttempts [c4Fail, c4Fail, c4Fail, c4Succ] c3Store 0 0) 0).map
        (fun it => (it.status, it.retryCount))
        = some (QueueItemStatus.failed, 3)
    ∧ (getPost (runAttempts [c4Fail, c4Fail, c4Fail, c4Succ] c3Store 0 0) "p1").map
        (fun p => p.status) = some SavedPostStatus.failed := by
  constructor <;> decide

/-- Claim C7 (counterexample): for the default configuration at attempt
10 with random draw 9/10, the computed delay is 348000, strictly above
maxDelay = 300000, and the jitter is 48000, strictly above the claimed
bound cappedDelay * jitterPercent / 2 = 30000: the delay does not lie in
the claimed interval and the jitter exceeds the claimed amplitude. -/
theorem C7_counterexample_delay_exceeds_cap :
    DEFAULT_RETRY_CONFIG.maxDelay = 300000
    ∧ calculateRetryDelay 10 DEFAULT_RETRY_CONFIG (9/10) = 348000
    ∧ ¬ ((calculateRetryDelay 10 DEFAULT_RETRY_CONFIG (9/10) : ℚ) ≤
          DEFAULT_RETRY_CONFIG.maxDelay)
    ∧ ¬ (|jitterOf DEFAULT_RETRY_CONFIG 10 (9/10)| ≤
          cappedDelay DEFAULT_RETRY_CONFIG 10 * DEFAULT_RETRY_CONFIG.jitterPercent / 2) := by
  have hcap : cappedDelay DEFAULT_RETRY_CONFIG 10 = 300000 := by
    unfold cappedDelay exponentialDelay DEFAULT_RETRY_CONFIG
    rw [min_eq_right (by norm_num)]
  have hjit : jitterOf DEFAULT_RETRY_CONFIG 10 (9/10) = 48000 := by
    unfold jitterOf
    rw [hcap]
    norm_num [DEFAULT_RETRY_CONFIG]
  have hdelay : calculateRetryDelay 10 DEFAULT_RETRY_CONFIG (9/10) = 348000 := by
    unfold calculateRetryDelay
    rw [hcap, hjit]
    have harg : (300000 : ℚ) + 48000 = ((348000 : ℤ) : ℚ) := by norm_num
    rw [harg, Int.floor_intCast]
  refine ⟨rfl, hdelay, ?_, ?_⟩
  · rw [hdelay]
    norm_num [DEFAULT_RETRY_CONFIG]
  · rw [hjit, hcap]
    norm_num [DEFAULT_RETRY_CONFIG]

/-- Claim C7 (amended): for every attempt number and every random draw in
[0, 1), the computed delay lies within [0, maxDelay * (1 + jitterPercent)],
the pre-jitter capped delay is monotonically nondecreasing in the attempt
number, and the jitter is bounded by plus-or-minus
cappedDelay * jitterPercent (not half of it). -/
theorem C7_amended_delay_bounds (n m : Nat) (r : ℚ) (cfg : RetryConfig)
    (h0 : 0 ≤ r) (h1 : r < 1) (hb : 0 ≤ cfg.baseDelay) (hm : 1 ≤ cfg.backoffMultiplier)
    (hj0 : 0 ≤ cfg.jitterPercent) (hj1 : cfg.jitterPercent ≤ 1) (hd : 0 ≤ cfg.maxDelay)
    (hnm : n ≤ m) :
    0 ≤ calculateRetryDelay n cfg r
    ∧ (calculateRetryDelay n cfg r : ℚ) ≤ cfg.maxDelay * (1 + cfg.jitterPercent)
    ∧ cappedDelay cfg n ≤ cappedDelay cfg m
    ∧ |jitterOf cfg n r| ≤ cappedDelay cfg n * cfg.jitterPercent := by
  have hmul0 : (0 : ℚ) ≤ cfg.backoffMultiplier := le_trans zero_le_one hm
  have hcap0 : 0 ≤ cappedDelay cfg n :=
    le_min (mul_nonneg hb (pow_nonneg hmul0 n)) hd
  have hX0 : 0 ≤ cappedDelay cfg n * cfg.jitterPercent := mul_nonneg hcap0 hj0
  have habs : |r - 1/2| ≤ 1/2 := abs_le.2 ⟨by linarith, by linarith⟩
  have hjit : |jitterOf cfg n r| ≤ cappedDelay cfg n * cfg.jitterPercent := by
    unfold jitterOf
    rw [abs_mul, abs_mul, abs_of_nonneg hX0]
    have h2 : |(2 : ℚ)| = 2 := abs_of_nonneg (by norm_num)
    rw [h2]
    nlinarith [abs_nonneg (r - 1/2), hX0]
  have hjlo : -(cappedDelay cfg n * cfg.jitterPercent) ≤ jitterOf cfg n r :=
    neg_le_of_abs_le hjit
  have hjhi : jitterOf cfg n r ≤ cappedDelay cfg n * cfg.jitterPercent :=
    le_of_abs_le hjit
  have hcapjp : cappedDelay cfg n * cfg.jitterPercent ≤ cappedDelay cfg n := by
    calc cappedDelay cfg n * cfg.jitterPercent ≤ cappedDelay cfg n * 1 :=
          mul_le_mul_of_nonneg_left hj1 hcap0
      _ = cappedDelay cfg n := mul_one _
  refine ⟨?_, ?_, ?_, hjit⟩
  · have : (0 : ℚ) ≤ cappedDelay cfg n + jitterOf cfg n r := by linarith
    exact Int.le_floor.2 (by exact_mod_cast this)
  · have hle : (calculateRetryDelay n cfg r : ℚ) ≤
        cappedDelay cfg n + jitterOf cfg n r := Int.floor_le _
    have hcapmax : cappedDelay cfg n ≤ cfg.maxDelay := min_le_right _ _
    have : cappedDelay cfg n + jitterOf cfg n r ≤
        cfg.maxDelay * (1 + cfg.jitterPercent) := by
      have h1p : cappedDelay cfg n * (1 + cfg.jitterPercent) ≤
          cfg.maxDelay * (1 + cfg.jitterPercent) :=
        mul_le_mul_of_nonneg_right hcapmax (by linarith)
      nlinarith
    linarith
  · unfold cappedDelay
    refine min_le_min ?_ le_rfl
    unfold exponentialDelay
    exact mul_le_mul_of_nonneg_left (pow_le_pow_right₀ hm hnm) hb

/-- Witness for the amended claim C7 at the default configuration,
attempts 0 and 1, random draw 1/2. -/
theorem C7_amended_delay_bounds_witness :
    0 ≤ calculateRetryDelay 0 DEFAULT_RETRY_CONFIG (1/2)
    ∧ (calculateRetryDelay 0 DEFAULT_RETRY_CONFIG (1/2) : ℚ) ≤
        DEFAULT_RETRY_CONFIG.maxDelay * (1 + DEFAULT_RETRY_CONFIG.jitterPercent)
    ∧ cappedDelay DEFAULT_RETRY_CONFIG 0 ≤ cappedDelay DEFAULT_RETRY_CONFIG 1
    ∧ |jitterOf DEFAULT_RETRY_CONFIG 0 (1/2)| ≤
        cappedDelay DEFAULT_RETRY_CONFIG 0 * DEFAULT_RETRY_CONFIG.jitterPercent :=
  C7_amended_delay_bounds 0 1 (1/2) DEFAULT_RETRY_CONFIG (by norm_num) (by norm_num)
    (by norm_num [DEFAULT_RETRY_CONFIG]) (by norm_num [DEFAULT_RETRY_CONFIG])
    (by norm_num [DEFAULT_RETRY_CONFIG]) (by norm_num [DEFAULT_RETRY_CONFIG])
    (by norm_num [DEFAULT_RETRY_CONFIG]) (by norm_num)

/-- find? after a keyed in-place map update: looking up the updated key
yields the updated entry. -/
theorem find?_map_update {α κ : Type} [DecidableEq κ] (l : List α) (k : κ) (key : α → κ)
    (u : α → α) (hu : ∀ x, key (u x) = key x) :
    (l.map (fun x => if key x = k then u x else x)).find? (fun x => decide (key x = k))
      = (l.find? (fun x => decide (key x = k))).map u := by
  induction l with
  | nil => rfl
  | cons a t ih =>
    simp only [List.map_cons]
    by_cases h : key a = k
    · rw [if_pos h]
      rw [List.find?_cons_of_pos _ (by simp [hu a, h]),
          List.find?_cons_of_pos _ (by simp [h])]
      rfl
    · rw [if_neg h]
      rw [List.find?_cons_of_neg _ (by simp [h]),
          List.find?_cons_of_neg _ (by simp [h])]
      exact ih

theorem getQueueItem_updateQueueItem_self (s : Store) (i : Nat) (f : QueueItem → QueueItem)
    (hf : ∀ it, (f it).id = it.id) :
    getQueueItem (updateQueueItem s i f) i = (getQueueItem s i).map f :=
  find?_map_update s.queue i QueueItem.id f hf

theorem getPost_updatePost_self (s : Store) (pid : String) (f : SavedPost → SavedPost)
    (now : Int) (hf : ∀ p, (f p).id = p.id) :
    getPost (updatePost s pid f now) pid
      = (getPost s pid).map (fun p => { f p with updatedAt := now }) :=
  find?_map_update s.posts pid SavedPost.id (fun p => { f p with updatedAt := now }) hf

theorem getPost_updateQueueItem (s : Store) (i : Nat) (f : QueueItem → QueueItem)
    (pid : String) : getPost (updateQueueItem s i f) pid = getPost s pid := rfl

theorem getQueueItem_updatePost (s : Store) (pid : String) (f : SavedPost → SavedPost)
    (now : Int) (i : Nat) : getQueueItem (updatePost s pid f now) i = getQueueItem s i := rfl

/-- Claim C9: retryItem succeeds exactly when the identified job exists
with status failed (raising the error and changing nothing otherwise);
on success it resets the job to pending with retryCount 0 and cleared
lastError and scheduledFor, resets the linked content item to pending
with its error cleared, triggers a scheduling pass, and leaves the
destinations untouched. -/
theorem C9_retryItem_spec (s : Store) (i : Nat) (now : Int) :
    (isOkB (retryItem s i now) = true ↔
      (getQueueItem s i).map QueueItem.status = some QueueItemStatus.failed)
    ∧ (∀ item : QueueItem, getQueueItem s i = some item →
        item.status = QueueItemStatus.failed →
        (retryItem s i now).map (fun out => out.2) = Except.ok true
        ∧ (retryItem s i now).map (fun out =>
            (getQueueItem out.1 i).map (fun it =>
              (it.status, it.retryCount, it.lastError, it.scheduledFor)))
          = Except.ok (some (QueueItemStatus.pending, 0, none, none))
        ∧ (retryItem s i now).map (fun out =>
            (getPost out.1 item.postId).map (fun p => (p.status, p.error)))
          = Except.ok ((getPost s item.postId).map
              (fun _ => (SavedPostStatus.pending, (none : Option String))))
        ∧ (retryItem s i now).map (fun out => out.1.destinations) =
            Except.ok s.destinations) := by
  constructor
  · cases hq : getQueueItem s i with
    | none => simp [retryItem, hq, isOkB]
    | some item =>
      by_cases hst : item.status = QueueItemStatus.failed
      · simp [retryItem, hq, hst, isOkB]
      · simp [retryItem, hq, hst, isOkB]
  · intro item hq hst
    have hrw : retryItem s i now = Except.ok
        (updatePost (updateQueueItem s i (fun it =>
          { it with status := QueueItemStatus.pending, retryCount := 0,
                    lastError := none, scheduledFor := none })) item.postId
          (fun p => { p with status := SavedPostStatus.pending, error := none }) now,
        true) := by
      simp [retryItem, hq, hst]
    refine ⟨by rw [hrw]; rfl, ?_, ?_, by rw [hrw]; rfl⟩
    · rw [hrw]
      simp only [Except.map]
      rw [getQueueItem_updatePost, getQueueItem_updateQueueItem_self s i (fun it =>
        { it with status := QueueItemStatus.pending, retryCount := 0,
                  lastError := none, scheduledFor := none }) (fun it => rfl)]
      simp [hq]
    · rw [hrw]
      simp only [Except.map]
      rw [getPost_updatePost_self (updateQueueItem s i (fun it =>
            { it with status := QueueItemStatus.pending, retryCount := 0,
                      lastError := none, scheduledFor := none })) item.postId
          (fun p => { p with status := SavedPostStatus.pending, error := none }) now
          (fun p => rfl),
        getPost_updateQueueItem]
      cases getPost s item.postId <;> simp

/-! Concrete fixtures for the claim C9 witness: a failed job with a
failed linked post. -/

def c9Post : SavedPost :=
  { id := "p9", destination := some "d1", status := SavedPostStatus.failed,
    publishedUrl := none, remoteId := none, error := some "boom", updatedAt := 3 }

def c9Job : QueueItem :=
  { id := 0, postId := "p9", destinationId := "d1", status := QueueItemStatus.failed,
    priority := 1, retryCount := 3, maxRetries := 3, lastError := some "boom",
    createdAt := 0, scheduledFor := some 99, startedAt := some 1, completedAt := none,
    skippedReason := none, existingRemoteId := none }

def c9Store : Store := { posts := [c9Post], destinations := [], queue := [c9Job] }

/-- Witness for claim C9 at a concrete store holding one failed job. -/
theorem C9_retryItem_spec_witness :
    (isOkB (retryItem c9Store 0 7) = true ↔
      (getQueueItem c9Store 0).map QueueItem.status = some QueueItemStatus.failed)
    ∧ (retryItem c9Store 0 7).map (fun out => out.2) = Except.ok true
    ∧ (retryItem c9Store 0 7).map (fun out =>
        (getQueueItem out.1 0).map (fun it =>
          (it.status, it.retryCount, it.lastError, it.scheduledFor)))
      = Except.ok (some (QueueItemStatus.pending, 0, none, none))
    ∧ (retryItem c9Store 0 7).map (fun out =>
        (getPost out.1 c9Job.postId).map (fun p => (p.status, p.error)))
      = Except.ok ((getPost c9Store c9Job.postId).map
          (fun _ => (SavedPostStatus.pending, (none : Option String))))
    ∧ (retryItem c9Store 0 7).map (fun out => out.1.destinations) =
        Except.ok c9Store.destinations := by
  have h := C9_retryItem_spec c9Store 0 7
  have h2 := h.2 c9Job rfl rfl
  exact ⟨h.1, h2.1, h2.2.1, h2.2.2.1, h2.2.2.2⟩

/-- Filtering out cancelled items commutes away under a subsequent filter
for any other single status. -/
theorem filter_filter_status (l : List QueueItem) (st : QueueItemStatus)
    (h : st ≠ QueueItemStatus.cancelled) :
    (l.filter (fun it => !decide (it.status = QueueItemStatus.cancelled))).filter
        (fun it => decide (it.status = st))
      = l.filter (fun it => decide (it.status = st)) := by
  rw [List.filter_filter]
  refine List.filter_congr ?_
  intro a _
  by_cases h1 : a.status = st
  · simp [h1, h]
  · simp [h1]

/-- Claim C10: getQueueStatus is invariant under removing the cancelled
jobs from the store, for every store state: cancelled jobs contribute to
none of the per-status counts, to the total, to the derived progress, nor
to any other reported field. -/
theorem C10_getQueueStatus_ignores_cancelled (queue : List QueueItem) :
    getQueueStatus (queue.filter (fun it => !decide (it.status = QueueItemStatus.cancelled)))
      = getQueueStatus queue := by
  unfold getQueueStatus
  rw [filter_filter_status queue QueueItemStatus.pending (by decide),
      filter_filter_status queue QueueItemStatus.processing (by decide),
      filter_filter_status queue QueueItemStatus.completed (by decide),
      filter_filter_status queue QueueItemStatus.failed (by decide)]

/-! Concrete fixtures for the claim C10 witness: one job of each status,
cancelled included. -/

def c10Base : QueueItem :=
  { id := 0, postId := "p1", destinationId := "d1", status := QueueItemStatus.pending,
    priority := 1, retryCount := 0, maxRetries := 3, lastError := none, createdAt := 0,
    scheduledFor := none, startedAt := none, completedAt := none,
    skippedReason := none, existingRemoteId := none }

def c10Queue : List QueueItem :=
  [c10Base,
   { c10Base with id := 1, status := QueueItemStatus.processing },
   { c10Base with id := 2, status := QueueItemStatus.completed, completedAt := some 4 },
   { c10Base with id := 3, status := QueueItemStatus.failed },
   { c10Base with id := 4, status := QueueItemStatus.cancelled }]

/-- Witness for claim C10 at a concrete queue containing a cancelled
job. -/
theorem C10_getQueueStatus_ignores_cancelled_witness :
    getQueueStatus (c10Queue.filter
      (fun it => !decide (it.status = QueueItemStatus.cancelled)))
      = getQueueStatus c10Queue :=
  C10_getQueueStatus_ignores_cancelled c10Queue

/-! The scheduler model: the in-memory state of the QueueManager (the
this.processing set, the pause flag, the re-entrancy guarded pass) next
to the persistent store, with a small-step transition relation whose
granularity matches the await points of processQueue.  A scheduling pass
iteration that has passed the pause and concurrency checks and is
awaiting storage.getPendingItems is represented by the fetched field;
pause may be observed between that check and the dispatch, exactly as in
the source, where the while condition is not re-checked after the
await. -/

structure MState where
  store : Store
  inflight : List QueueItem
  fetched : Option QueueItem
  paused : Bool
  maxConcurrent : Nat
  nextId : Nat
  now : Int
  deriving DecidableEq

/-- QueueManager.pause: sets the flag; in-flight work is untouched. -/
def pauseM (s : MState) : MState := { s with paused := true }

/-- QueueManager.resume: clears the flag (the triggered pass is the
startFetch step that the cleared flag re-enables). -/
def resumeM (s : MState) : MState := { s with paused := false }

/-- A freshly constructed QueueManager over a store with no jobs yet. -/
def initState (maxConcurrent : Nat) (posts : List SavedPost)
    (dests : List Destination) : MState :=
  { store := { posts := posts, destinations := dests, queue := [] },
    inflight := [], fetched := none, paused := false,
    maxConcurrent := maxConcurrent, nextId := 0, now := 0 }

/-- Successor state of a QueueManager.enqueue call: the fresh pending
job is admitted and the fresh-id counter advances. -/
def enqueueState (s : MState) (postId destinationId : String) (priority : Nat) : MState :=
  { s with store := (enqueue s.store postId destinationId priority s.nextId s.now).1,
           nextId := s.nextId + 1 }

/-- Successor state of a pass iteration that has fetched an item. -/
def fetchState (s : MState) (item : QueueItem) : MState :=
  { s with fetched := some item }

/-- Successor state of the dispatch of the fetched item: it joins
this.processing and is marked processing with startedAt, without the
pause flag being re-checked. -/
def dispatchState (s : MState) (item : QueueItem) : MState :=
  { s with fetched := none, inflight := item :: s.inflight,
           store := updateQueueItem s.store item.id (fun it =>
             { it with status := QueueItemStatus.processing, startedAt := some s.now }) }

/-- Successor state of an in-flight processItem execution finishing with
a given publisher outcome: its slot is freed. -/
def finishState (s : MState) (item : QueueItem) (factory : Option PublisherFactory)
    (rand : ℚ) : MState :=
  { s with inflight := s.inflight.erase item,
           store := runItemBody factory rand s.now s.store item }

/-- Successor state of the clock advancing. -/
def tickState (s : MState) : MState := { s with now := s.now + 1 }

/-- One observable step of the scheduler:
- enqueueJob: QueueManager.enqueue admits a fresh pending job;
- startFetch: a processQueue iteration passes the pause check and the
  concurrency-bound check and fetches the next eligible pending item
  (the has-check of the loop is the last guard);
- dispatch: the awaited fetch returns and the item is dispatched;
- finish: an in-flight processItem execution runs its body with an
  arbitrary publisher outcome and frees its slot;
- pauseStep / resumeStep: the public pause and resume operations;
- tick: time passes. -/
inductive Step : MState → MState → Prop where
  | enqueueJob (s : MState) (postId destinationId : String) (priority : Nat) :
      Step s (enqueueState s postId destinationId priority)
  | startFetch (s : MState) (item : QueueItem) :
      s.paused = false → s.fetched = none →
      s.inflight.length < s.maxConcurrent →
      getPendingItems s.store s.now 1 = [item] →
      item.id ∉ s.inflight.map QueueItem.id →
      Step s (fetchState s item)
  | dispatch (s : MState) (item : QueueItem) :
      s.fetched = some item →
      Step s (dispatchState s item)
  | finish (s : MState) (item : QueueItem) (factory : Option PublisherFactory) (rand : ℚ) :
      item ∈ s.inflight →
      Step s (finishState s item factory rand)
  | pauseStep (s : MState) : Step s (pauseM s)
  | resumeStep (s : MState) : Step s (resumeM s)
  | tick (s : MState) : Step s (tickState s)

/-- Reachability along scheduler steps. -/
def Reach : MState → MState → Prop := Relation.ReflTransGen Step

/-- The jobs recorded as processing in the store. -/
def processingJobs (q : List QueueItem) : List QueueItem :=
  q.filter (fun it => decide (it.status = QueueItemStatus.processing))

/-! List-level helper lemmas about the keyed map updates of the store. -/

theorem map_id_ite (l : List QueueItem) (i : Nat) (u : QueueItem → QueueItem)
    (hu : ∀ it, (u it).id = it.id) :
    (l.map (fun it => if it.id = i then u it else it)).map QueueItem.id
      = l.map QueueItem.id := by
  induction l with
  | nil => rfl
  | cons a t ih =>
    simp only [List.map_cons]
    rw [ih]
    by_cases h : a.id = i
    · rw [if_pos h, hu a]
    · rw [if_neg h]

theorem mem_update_of_ne_id (l : List QueueItem) (i : Nat) (u : QueueItem → QueueItem)
    (hu : ∀ it, (u it).id = it.id) (j : QueueItem) (hne : j.id ≠ i) :
    j ∈ l.map (fun it => if it.id = i then u it else it) ↔ j ∈ l := by
  simp only [List.mem_map]
  constructor
  · rintro ⟨a, ha, heq⟩
    by_cases h : a.id = i
    · rw [if_pos h] at heq
      exact absurd (by rw [← heq, hu a]; exact h) hne
    · rw [if_neg h] at heq
      exact heq ▸ ha
  · intro hj
    exact ⟨j, hj, by rw [if_neg hne]⟩

theorem mem_update_self_id (l : List QueueItem) (i : Nat) (u : QueueItem → QueueItem)
    (j : QueueItem) (hj : j ∈ l.map (fun it => if it.id = i then u it else it))
    (hji : j.id = i) :
    ∃ a, a ∈ l ∧ a.id = i ∧ j = u a := by
  rcases List.mem_map.1 hj with ⟨a, ha, heq⟩
  by_cases h : a.id = i
  · exact ⟨a, ha, h, by rw [← heq, if_pos h]⟩
  · rw [if_neg h] at heq
    subst heq
    exact absurd hji h

theorem mem_insertByPriorityDesc (x a : QueueItem) (l : List QueueItem) :
    x ∈ insertByPriorityDesc a l ↔ x = a ∨ x ∈ l := by
  induction l with
  | nil => simp [insertByPriorityDesc]
  | cons b t ih =>
    by_cases h : b.priority ≤ a.priority
    · simp [insertByPriorityDesc, h]
    · simp [insertByPriorityDesc, h, ih]
      tauto

theorem mem_sortByPriorityDesc (x : QueueItem) (l : List QueueItem) :
    x ∈ sortByPriorityDesc l ↔ x ∈ l := by
  induction l with
  | nil => simp [sortByPriorityDesc]
  | cons a t ih =>
    simp [sortByPriorityDesc, mem_insertByPriorityDesc, ih]

theorem mem_getPendingItems (s : Store) (now : Int) (limit : Nat) (x : QueueItem)
    (hx : x ∈ getPendingItems s now limit) :
    x ∈ s.queue ∧ x.status = QueueItemStatus.pending := by
  unfold getPendingItems at hx
  have h1 := List.mem_of_mem_take hx
  have h2 := (mem_sortByPriorityDesc x _).1 h1
  have h3 := List.mem_filter.1 h2
  refine ⟨h3.1, ?_⟩
  have h4 := h3.2
  unfold isEligiblePending at h4
  rw [Bool.and_eq_true] at h4
  exact of_decide_eq_true h4.1

/-- Two entries of a queue with nodup ids and equal ids are equal. -/
theorem eq_of_mem_of_id_eq {l : List QueueItem} (hl : (l.map QueueItem.id).Nodup)
    {a b : QueueItem} (ha : a ∈ l) (hb : b ∈ l) (hid : a.id = b.id) : a = b :=
  List.inj_on_of_nodup_map hl ha hb hid

/-- A member of a list with the same id multiset has an id witness in the
original list. -/
theorem id_mem_of_ids_eq {l l' : List QueueItem}
    (h : l'.map QueueItem.id = l.map QueueItem.id) (j : QueueItem) (hj : j ∈ l') :
    ∃ a ∈ l, a.id = j.id := by
  have h2 : j.id ∈ l'.map QueueItem.id := List.mem_map_of_mem _ hj
  rw [h] at h2
  rcases List.mem_map.1 h2 with ⟨a, ha, haeq⟩
  exact ⟨a, ha, haeq⟩

/-! Facts about the queue effect of handleError. -/

theorem handleError_queue_ids (s : Store) (item : QueueItem) (e : String) (rand : ℚ)
    (now : Int) :
    (handleError s item e rand now).queue.map QueueItem.id = s.queue.map QueueItem.id := by
  unfold handleError
  by_cases hb : item.maxRetries ≤ item.retryCount + 1
  · rw [if_pos hb]
    exact map_id_ite s.queue item.id
      (fun it => { it with status := QueueItemStatus.failed, lastError := some e,
                           retryCount := item.retryCount + 1 }) (fun it => rfl)
  · rw [if_neg hb]
    exact map_id_ite s.queue item.id
      (fun it => { it with status := QueueItemStatus.pending,
                           retryCount := item.retryCount + 1, lastError := some e,
                           scheduledFor := some (now + calculateRetryDelay
                             (item.retryCount + 1) DEFAULT_RETRY_CONFIG rand) })
      (fun it => rfl)

theorem handleError_mem_ne (s : Store) (item : QueueItem) (e : String) (rand : ℚ)
    (now : Int) (j : QueueItem) (hne : j.id ≠ item.id) :
    j ∈ (handleError s item e rand now).queue ↔ j ∈ s.queue := by
  unfold handleError
  by_cases hb : item.maxRetries ≤ item.retryCount + 1
  · rw [if_pos hb]
    exact mem_update_of_ne_id s.queue item.id
      (fun it => { it with status := QueueItemStatus.failed, lastError := some e,
                           retryCount := item.retryCount + 1 }) (fun it => rfl) j hne
  · rw [if_neg hb]
    exact mem_update_of_ne_id s.queue item.id
      (fun it => { it with status := QueueItemStatus.pending,
                           retryCount := item.retryCount + 1, lastError := some e,
                           scheduledFor := some (now + calculateRetryDelay
                             (item.retryCount + 1) DEFAULT_RETRY_CONFIG rand) })
      (fun it => rfl) j hne

theorem handleError_self_status (s : Store) (item : QueueItem) (e : String) (rand : ℚ)
    (now : Int) (j : QueueItem) (hj : j ∈ (handleError s item e rand now).queue)
    (hjid : j.id = item.id) :
    j.status = QueueItemStatus.failed ∨ j.status = QueueItemStatus.pending := by
  unfold handleError at hj
  by_cases hb : item.maxRetries ≤ item.retryCount + 1
  · rw [if_pos hb] at hj
    rcases mem_update_self_id s.queue item.id _ j hj hjid with ⟨a, _, _, rfl⟩
    exact Or.inl rfl
  · rw [if_neg hb] at hj
    rcases mem_update_self_id s.queue item.id _ j hj hjid with ⟨a, _, _, rfl⟩
    exact Or.inr rfl

theorem handleError_self_rc (s : Store) (item : QueueItem) (e : String) (rand : ℚ)
    (now : Int)
    (hmax : ∀ a ∈ s.queue, a.id = item.id → a.maxRetries = item.maxRetries)
    (hrc : item.retryCount < item.maxRetries) (j : QueueItem)
    (hj : j ∈ (handleError s item e rand now).queue) (hjid : j.id = item.id) :
    j.retryCount ≤ j.maxRetries ∧
      (j.status ≠ QueueItemStatus.failed → j.retryCount < j.maxRetries) := by
  unfold handleError at hj
  by_cases hb : item.maxRetries ≤ item.retryCount + 1
  · rw [if_pos hb] at hj
    rcases mem_update_self_id s.queue item.id _ j hj hjid with ⟨a, ha, haid, rfl⟩
    have hmax2 := hmax a ha haid
    refine ⟨?_, fun hcon => absurd rfl hcon⟩
    show item.retryCount + 1 ≤ a.maxRetries
    omega
  · rw [if_neg hb] at hj
    rcases mem_update_self_id s.queue item.id _ j hj hjid with ⟨a, ha, haid, rfl⟩
    have hmax2 := hmax a ha haid
    refine ⟨?_, fun _ => ?_⟩
    · show item.retryCount + 1 ≤ a.maxRetries
      omega
    · show item.retryCount + 1 < a.maxRetries
      omega

/-! Facts about the queue effect of runItemBody.  The update function of
the success branch of processItem. -/

def completeUpd (now : Int) : QueueItem → QueueItem := fun it =>
  { it with status := QueueItemStatus.completed, completedAt := some now }

theorem runItemBody_queue_ids (factory : Option PublisherFactory) (rand : ℚ) (now : Int)
    (s : Store) (item : QueueItem) :
    (runItemBody factory rand now s item).queue.map QueueItem.id
      = s.queue.map QueueItem.id := by
  cases hgp : getPost s item.postId with
  | none =>
    simp only [runItemBody, hgp]
    exact handleError_queue_ids s item _ rand now
  | some post =>
    cases hgd : getDestination s item.destinationId with
    | none =>
      simp only [runItemBody, hgp, hgd]
      exact handleError_queue_ids s item _ rand now
    | some destination =>
      cases hpc : publishContent factory post destination with
      | error e =>
        simp only [runItemBody, hgp, hgd, hpc]
        exact handleError_queue_ids s item e rand now
      | ok result =>
        by_cases hs : result.success = true
        · simp only [runItemBody, hgp, hgd, hpc, hs, if_true]
          exact map_id_ite s.queue item.id (completeUpd now) (fun it => rfl)
        · simp only [runItemBody, hgp, hgd, hpc, hs, if_false]
          exact handleError_queue_ids s item _ rand now

theorem runItemBody_mem_ne (factory : Option PublisherFactory) (rand : ℚ) (now : Int)
    (s : Store) (item : QueueItem) (j : QueueItem) (hne : j.id ≠ item.id) :
    j ∈ (runItemBody factory rand now s item).queue ↔ j ∈ s.queue := by
  cases hgp : getPost s item.postId with
  | none =>
    simp only [runItemBody, hgp]
    exact handleError_mem_ne s item _ rand now j hne
  | some post =>
    cases hgd : getDestination s item.destinationId with
    | none =>
      simp only [runItemBody, hgp, hgd]
      exact handleError_mem_ne s item _ rand now j hne
    | some destination =>
      cases hpc : publishContent factory post destination with
      | error e =>
        simp only [runItemBody, hgp, hgd, hpc]
        exact handleError_mem_ne s item e rand now j hne
      | ok result =>
        by_cases hs : result.success = true
        · simp only [runItemBody, hgp, hgd, hpc, hs, if_true]
          exact mem_update_of_ne_id s.queue item.id (completeUpd now) (fun it => rfl) j hne
        · simp only [runItemBody, hgp, hgd, hpc, hs, if_false]
          exact handleError_mem_ne s item _ rand now j hne

theorem runItemBody_self_status (factory : Option PublisherFactory) (rand : ℚ) (now : Int)
    (s : Store) (item : QueueItem) (j : QueueItem)
    (hj : j ∈ (runItemBody factory rand now s item).queue) (hjid : j.id = item.id) :
    j.status = QueueItemStatus.completed ∨ j.status = QueueItemStatus.failed ∨
      j.status = QueueItemStatus.pending := by
  cases hgp : getPost s item.postId with
  | none =>
    simp only [runItemBody, hgp] at hj
    exact Or.inr (handleError_self_status s item _ rand now j hj hjid)
  | some post =>
    cases hgd : getDestination s item.destinationId with
    | none =>
      simp only [runItemBody, hgp, hgd] at hj
      exact Or.inr (handleError_self_status s item _ rand now j hj hjid)
    | some destination =>
      cases hpc : publishContent factory post destination with
      | error e =>
        simp only [runItemBody, hgp, hgd, hpc] at hj
        exact Or.inr (handleError_self_status s item e rand now j hj hjid)
      | ok result =>
        by_cases hs : result.success = true
        · simp only [runItemBody, hgp, hgd, hpc, hs, if_true] at hj
          rcases mem_update_self_id s.queue item.id _ j hj hjid with ⟨a, _, _, rfl⟩
          exact Or.inl rfl
        · simp only [runItemBody, hgp, hgd, hpc, hs, if_false] at hj
          exact Or.inr (handleError_self_status s item _ rand now j hj hjid)

theorem runItemBody_self_rc (factory : Option PublisherFactory) (rand : ℚ) (now : Int)
    (s : Store) (item : QueueItem)
    (hsync : ∀ a ∈ s.queue, a.id = item.id →
      a.retryCount = item.retryCount ∧ a.maxRetries = item.maxRetries)
    (hrc : item.retryCount < item.maxRetries) (j : QueueItem)
    (hj : j ∈ (runItemBody factory rand now s item).queue) (hjid : j.id = item.id) :
    j.retryCount ≤ j.maxRetries ∧
      (j.status ≠ QueueItemStatus.failed → j.retryCount < j.maxRetries) := by
  have hmax : ∀ a ∈ s.queue, a.id = item.id → a.maxRetries = item.maxRetries :=
    fun a ha haid => (hsync a ha haid).2
  cases hgp : getPost s item.postId with
  | none =>
    simp only [runItemBody, hgp] at hj
    exact handleError_self_rc s item _ rand now hmax hrc j hj hjid
  | some post =>
    cases hgd : getDestination s item.destinationId with
    | none =>
      simp only [runItemBody, hgp, hgd] at hj
      exact handleError_self_rc s item _ rand now hmax hrc j hj hjid
    | some destination =>
      cases hpc : publishContent factory post destination with
      | error e =>
        simp only [runItemBody, hgp, hgd, hpc] at hj
        exact handleError_self_rc s item e rand now hmax hrc j hj hjid
      | ok result =>
        by_cases hs : result.success = true
        · simp only [runItemBody, hgp, hgd, hpc, hs, if_true] at hj
          rcases mem_update_self_id s.queue item.id _ j hj hjid with ⟨a, ha, haid, rfl⟩
          have hsync2 := hsync a ha haid
          refine ⟨?_, fun _ => ?_⟩
          · show a.retryCount ≤ a.maxRetries
            omega
          · show a.retryCount < a.maxRetries
            omega
        · simp only [runItemBody, hgp, hgd, hpc, hs, if_false] at hj
          exact handleError_self_rc s item _ rand now hmax hrc j hj hjid

/-- The inductive invariant of the scheduler: queue ids are unique and
below the fresh-id counter, the in-flight set has unique ids and respects
the concurrency bound with room reserved for a fetched item, a fetched
item is a pending queue entry not currently in flight, every job stored
as processing is in flight, retry counters stay within budget (strictly
below it away from the failed state, and no job is ever cancelled by the
scheduler), and in-flight snapshots agree with the store on retryCount
and maxRetries. -/
structure Inv (s : MState) : Prop where
  nodupQueue : (s.store.queue.map QueueItem.id).Nodup
  freshQueue : ∀ j ∈ s.store.queue, j.id < s.nextId
  nodupInflight : (s.inflight.map QueueItem.id).Nodup
  inflightBound : s.inflight.length ≤ s.maxConcurrent
  fetchedRoom : ∀ it, s.fetched = some it → s.inflight.length < s.maxConcurrent
  fetchedNotInflight : ∀ it, s.fetched = some it → it.id ∉ s.inflight.map QueueItem.id
  fetchedPending : ∀ it, s.fetched = some it →
    it ∈ s.store.queue ∧ it.status = QueueItemStatus.pending
  procInflight : ∀ j ∈ s.store.queue, j.status = QueueItemStatus.processing →
    j.id ∈ s.inflight.map QueueItem.id
  rcBound : ∀ j ∈ s.store.queue, j.retryCount ≤ j.maxRetries ∧
    (j.status ≠ QueueItemStatus.failed → j.retryCount < j.maxRetries) ∧
    j.status ≠ QueueItemStatus.cancelled
  inflightSync : ∀ it ∈ s.inflight, it.retryCount < it.maxRetries ∧
    ∀ j ∈ s.store.queue, j.id = it.id →
      j.retryCount = it.retryCount ∧ j.maxRetries = it.maxRetries
  inflightFresh : ∀ it ∈ s.inflight, it.id < s.nextId

theorem inv_init (N : Nat) (posts : List SavedPost) (dests : List Destination) :
    Inv (initState N posts dests) := by
  refine ⟨?_, ?_, ?_, ?_, ?_, ?_, ?_, ?_, ?_, ?_, ?_⟩ <;> simp [initState]

theorem inv_step {s t : MState} (hInv : Inv s) (hstep : Step s t) : Inv t := by
  obtain ⟨hnq, hfq, hni, hib, hfr, hfni, hfp, hpi, hrb, his, hif⟩ := hInv
  cases hstep with
  | enqueueJob postId destinationId priority =>
    refine ⟨?_, ?_, hni, hib, hfr, hfni, ?_, ?_, ?_, ?_, ?_⟩
    · simp only [enqueueState, enqueue, List.map_append, List.map_cons, List.map_nil]
      rw [List.nodup_append]
      refine ⟨hnq, List.nodup_singleton _, ?_⟩
      intro a ha hb
      rcases List.mem_map.1 ha with ⟨jj, hjj, rfl⟩
      have hlt := hfq jj hjj
      have heq : jj.id = s.nextId := List.mem_singleton.1 hb
      omega
    · intro j hj
      show j.id < s.nextId + 1
      simp only [enqueueState, enqueue, List.mem_append, List.mem_singleton] at hj
      rcases hj with hj | rfl
      · have := hfq j hj
        omega
      · exact Nat.lt_succ_self s.nextId
    · intro it h
      obtain ⟨h1, h2⟩ := hfp it h
      refine ⟨?_, h2⟩
      simp only [enqueueState, enqueue]
      exact List.mem_append_left _ h1
    · intro j hj hstat
      simp only [enqueueState, enqueue, List.mem_append, List.mem_singleton] at hj
      rcases hj with hj | rfl
      · exact hpi j hj hstat
      · simp at hstat
    · intro j hj
      simp only [enqueueState, enqueue, List.mem_append, List.mem_singleton] at hj
      rcases hj with hj | rfl
      · exact hrb j hj
      · refine ⟨?_, fun _ => ?_, ?_⟩
        · show (0 : Nat) ≤ 3
          decide
        · show (0 : Nat) < 3
          decide
        · intro hcon
          exact QueueItemStatus.noConfusion hcon
    · intro it hit
      obtain ⟨h1, h2⟩ := his it hit
      refine ⟨h1, ?_⟩
      intro j hj hid
      simp only [enqueueState, enqueue, List.mem_append, List.mem_singleton] at hj
      rcases hj with hj | rfl
      · exact h2 j hj hid
      · exfalso
        have h3 : s.nextId = it.id := hid
        have h4 := hif it hit
        omega
    · intro it hit
      exact Nat.lt_succ_of_lt (hif it hit)
  | startFetch item hpause hfetched hlen hpend hnotin =>
    refine ⟨hnq, hfq, hni, hib, ?_, ?_, ?_, hpi, hrb, his, hif⟩
    · intro it h
      obtain rfl : item = it := Option.some.inj h
      exact hlen
    · intro it h
      obtain rfl : item = it := Option.some.inj h
      exact hnotin
    · intro it h
      obtain rfl : item = it := Option.some.inj h
      have hin : item ∈ getPendingItems s.store s.now 1 := by
        rw [hpend]
        exact List.mem_singleton_self item
      exact mem_getPendingItems s.store s.now 1 item hin
  | dispatch item hf =>
    have hroom := hfr item hf
    have hnotin := hfni item hf
    obtain ⟨hinq, hpend⟩ := hfp item hf
    have hneF : item.status ≠ QueueItemStatus.failed := by
      rw [hpend]
      decide
    have hrcitem : item.retryCount < item.maxRetries := (hrb item hinq).2.1 hneF
    refine ⟨?_, ?_, ?_, ?_, ?_, ?_, ?_, ?_, ?_, ?_, ?_⟩
    · show ((s.store.queue.map (fun it => if it.id = item.id then
          { it with status := QueueItemStatus.processing, startedAt := some s.now }
          else it)).map QueueItem.id).Nodup
      rw [map_id_ite s.store.queue item.id
        (fun it => { it with status := QueueItemStatus.processing,
                             startedAt := some s.now }) (fun it => rfl)]
      exact hnq
    · intro j hj
      show j.id < s.nextId
      have hids := map_id_ite s.store.queue item.id
        (fun it => { it with status := QueueItemStatus.processing,
                             startedAt := some s.now }) (fun it => rfl)
      rcases id_mem_of_ids_eq hids j hj with ⟨a, ha, haid⟩
      have h4 := hfq a ha
      rw [haid] at h4
      exact h4
    · show ((item :: s.inflight).map QueueItem.id).Nodup
      simp only [List.map_cons, List.nodup_cons]
      exact ⟨hnotin, hni⟩
    · show (item :: s.inflight).length ≤ s.maxConcurrent
      simp only [List.length_cons]
      omega
    · intro it h
      simp only [dispatchState] at h
      exact Option.noConfusion h
    · intro it h
      simp only [dispatchState] at h
      exact Option.noConfusion h
    · intro it h
      simp only [dispatchState] at h
      exact Option.noConfusion h
    · intro j hj hstat
      show j.id ∈ (item :: s.inflight).map QueueItem.id
      simp only [List.map_cons, List.mem_cons]
      by_cases hji : j.id = item.id
      · exact Or.inl hji
      · have hj2 : j ∈ s.store.queue :=
          (mem_update_of_ne_id s.store.queue item.id
            (fun it => { it with status := QueueItemStatus.processing,
                                 startedAt := some s.now }) (fun it => rfl) j hji).1 hj
        exact Or.inr (hpi j hj2 hstat)
    · intro j hj
      by_cases hji : j.id = item.id
      · rcases mem_update_self_id s.store.queue item.id _ j hj hji with ⟨a, ha, haid, rfl⟩
        have haeq : a = item := eq_of_mem_of_id_eq hnq ha hinq haid
        subst haeq
        refine ⟨le_of_lt hrcitem, fun _ => hrcitem, ?_⟩
        intro hcon
        exact QueueItemStatus.noConfusion hcon
      · have hj2 : j ∈ s.store.queue :=
          (mem_update_of_ne_id s.store.queue item.id
            (fun it => { it with status := QueueItemStatus.processing,
                                 startedAt := some s.now }) (fun it => rfl) j hji).1 hj
        exact hrb j hj2
    · intro it2 hit2
      rcases List.mem_cons.1 hit2 with rfl | hit2m
      · refine ⟨hrcitem, ?_⟩
        intro j hj hid
        rcases mem_update_self_id s.store.queue it2.id _ j hj hid with ⟨a, ha, haid, rfl⟩
        have haeq : a = it2 := eq_of_mem_of_id_eq hnq ha hinq haid
        subst haeq
        exact ⟨rfl, rfl⟩
      · refine ⟨(his it2 hit2m).1, ?_⟩
        intro j hj hid
        have hne2 : it2.id ≠ item.id := by
          intro hcon
          apply hnotin
          rw [← hcon]
          exact List.mem_map_of_mem QueueItem.id hit2m
        have hjne : j.id ≠ item.id := by
          rw [hid]
          exact hne2
        have hj2 : j ∈ s.store.queue :=
          (mem_update_of_ne_id s.store.queue item.id
            (fun it => { it with status := QueueItemStatus.processing,
                                 startedAt := some s.now }) (fun it => rfl) j hjne).1 hj
        exact (his it2 hit2m).2 j hj2 hid
    · intro it2 hit2
      rcases List.mem_cons.1 hit2 with rfl | hit2m
      · exact hfq it2 hinq
      · exact hif it2 hit2m
  | finish item factory rand hmem =>
    obtain ⟨hrcitem, hsync⟩ := his item hmem
    have hnidsE : s.inflight.Nodup := hni.of_map
    have hids := runItemBody_queue_ids factory rand s.now s.store item
    refine ⟨?_, ?_, ?_, ?_, ?_, ?_, ?_, ?_, ?_, ?_, ?_⟩
    · show ((runItemBody factory rand s.now s.store item).queue.map QueueItem.id).Nodup
      rw [hids]
      exact hnq
    · intro j hj
      show j.id < s.nextId
      rcases id_mem_of_ids_eq hids j hj with ⟨a, ha, haid⟩
      have h4 := hfq a ha
      rw [haid] at h4
      exact h4
    · show ((s.inflight.erase item).map QueueItem.id).Nodup
      exact List.Nodup.sublist (List.Sublist.map _ (List.erase_sublist _ _)) hni
    · show (s.inflight.erase item).length ≤ s.maxConcurrent
      exact le_trans (List.Sublist.length_le (List.erase_sublist _ _)) hib
    · intro it h
      have h2 := hfr it h
      exact lt_of_le_of_lt (List.Sublist.length_le (List.erase_sublist _ _)) h2
    · intro it h hin
      exact hfni it h ((List.Sublist.map QueueItem.id (List.erase_sublist _ _)).subset hin)
    · intro it h
      obtain ⟨hq2, hp2⟩ := hfp it h
      have hneid : it.id ≠ item.id := by
        intro hcon
        apply hfni it h
        rw [hcon]
        exact List.mem_map_of_mem QueueItem.id hmem
      refine ⟨?_, hp2⟩
      show it ∈ (runItemBody factory rand s.now s.store item).queue
      exact (runItemBody_mem_ne factory rand s.now s.store item it hneid).2 hq2
    · intro j hj hstat
      show j.id ∈ (s.inflight.erase item).map QueueItem.id
      by_cases hji : j.id = item.id
      · exfalso
        have hj2 : j ∈ (runItemBody factory rand s.now s.store item).queue := hj
        rcases runItemBody_self_status factory rand s.now s.store item j hj2 hji
          with h | h | h <;> rw [hstat] at h <;> exact QueueItemStatus.noConfusion h
      · have hj2 : j ∈ s.store.queue :=
          (runItemBody_mem_ne factory rand s.now s.store item j hji).1 hj
        have hidin := hpi j hj2 hstat
        rcases List.mem_map.1 hidin with ⟨it2, hit2, hid2⟩
        have hne2 : it2 ≠ item := by
          intro hcon
          apply hji
          rw [← hid2, hcon]
        have hmem2 : it2 ∈ s.inflight.erase item :=
          (hnidsE.mem_erase_iff).2 ⟨hne2, hit2⟩
        rw [← hid2]
        exact List.mem_map_of_mem QueueItem.id hmem2
    · intro j hj
      by_cases hji : j.id = item.id
      · have hj2 : j ∈ (runItemBody factory rand s.now s.store item).queue := hj
        obtain ⟨h1, h2⟩ :=
          runItemBody_self_rc factory rand s.now s.store item hsync hrcitem j hj2 hji
        refine ⟨h1, h2, ?_⟩
        rcases runItemBody_self_status factory rand s.now s.store item j hj2 hji
          with h | h | h <;> rw [h] <;> decide
      · have hj2 : j ∈ s.store.queue :=
          (runItemBody_mem_ne factory rand s.now s.store item j hji).1 hj
        exact hrb j hj2
    · intro it2 hit2
      obtain ⟨hne2, hit2m⟩ := (hnidsE.mem_erase_iff).1 hit2
      have hneid : it2.id ≠ item.id := by
        intro hcon
        exact hne2 (List.inj_on_of_nodup_map hni hit2m hmem hcon)
      refine ⟨(his it2 hit2m).1, ?_⟩
      intro j hj hid
      have hjne : j.id ≠ item.id := by
        rw [hid]
        exact hneid
      have hj2 : j ∈ s.store.queue :=
        (runItemBody_mem_ne factory rand s.now s.store item j hjne).1 hj
      exact (his it2 hit2m).2 j hj2 hid
    · intro it2 hit2
      exact hif it2 ((List.erase_sublist _ _).subset hit2)
  | pauseStep =>
    exact ⟨hnq, hfq, hni, hib, hfr, hfni, hfp, hpi, hrb, his, hif⟩
  | resumeStep =>
    exact ⟨hnq, hfq, hni, hib, hfr, hfni, hfp, hpi, hrb, his, hif⟩
  | tick =>
    exact ⟨hnq, hfq, hni, hib, hfr, hfni, hfp, hpi, hrb, his, hif⟩

theorem inv_reach {s0 s : MState} (h : Reach s0 s) (h0 : Inv s0) : Inv s := by
  induction h with
  | refl => exact h0
  | tail _ hstep ih => exact inv_step ih hstep

theorem step_maxConcurrent {s t : MState} (h : Step s t) :
    t.maxConcurrent = s.maxConcurrent := by
  cases h <;> rfl

theorem reach_maxConcurrent {s0 s : MState} (h : Reach s0 s) :
    s.maxConcurrent = s0.maxConcurrent := by
  induction h with
  | refl => rfl
  | tail _ hstep ih => rw [step_maxConcurrent hstep, ih]

/-- Claim C5: along every run of the scheduler from a fresh state (all
jobs admitted by enqueue, failure handling automatic, no manual retries
in the step relation), every stored job keeps retryCount at most
maxRetries, and a job whose retryCount has reached maxRetries is failed:
in particular it is never pending again, so it is never automatically
re-dispatched. -/
theorem C5_retryCount_bounded (N : Nat) (posts : List SavedPost)
    (dests : List Destination) (s : MState) (h : Reach (initState N posts dests) s)
    (j : QueueItem) (hj : j ∈ s.store.queue) :
    j.retryCount ≤ j.maxRetries ∧
      (j.retryCount = j.maxRetries → j.status = QueueItemStatus.failed) := by
  have hInv := inv_reach h (inv_init N posts dests)
  obtain ⟨h1, h2, _⟩ := hInv.rcBound j hj
  refine ⟨h1, fun he => ?_⟩
  by_contra hne
  have := h2 hne
  omega

/-! Concrete one-step trace for the claim C5 witness. -/

def c5S0 : MState := initState 3 [] []

def c5S1 : MState := enqueueState c5S0 "p1" "d1" 1

def c5Job : QueueItem :=
  { id := 0, postId := "p1", destinationId := "d1", status := QueueItemStatus.pending,
    priority := 1, retryCount := 0, maxRetries := 3, lastError := none, createdAt := 0,
    scheduledFor := none, startedAt := none, completedAt := none,
    skippedReason := none, existingRemoteId := none }

/-- Witness for claim C5 on the job admitted by one enqueue step. -/
theorem C5_retryCount_bounded_witness :
    c5Job.retryCount ≤ c5Job.maxRetries ∧
      (c5Job.retryCount = c5Job.maxRetries → c5Job.status = QueueItemStatus.failed) :=
  C5_retryCount_bounded 3 [] [] c5S1
    (Relation.ReflTransGen.single (Step.enqueueJob c5S0 "p1" "d1" 1))
    c5Job (by decide)

/-- Claim C6: for a Queue Manager constructed with concurrency bound N,
in every state reachable by the scheduler from a fresh start, at most N
jobs are recorded as processing in the store. -/
theorem C6_processing_bounded (N : Nat) (posts : List SavedPost)
    (dests : List Destination) (s : MState) (h : Reach (initState N posts dests) s) :
    (processingJobs s.store.queue).length ≤ N := by
  have hInv := inv_reach h (inv_init N posts dests)
  have hmax : s.maxConcurrent = N := reach_maxConcurrent h
  have hsub : (processingJobs s.store.queue).map QueueItem.id ⊆
      s.inflight.map QueueItem.id := by
    intro x hx
    rcases List.mem_map.1 hx with ⟨j, hj, rfl⟩
    have hj2 := List.mem_filter.1 hj
    exact hInv.procInflight j hj2.1 (of_decide_eq_true hj2.2)
  have hnd : ((processingJobs s.store.queue).map QueueItem.id).Nodup := by
    have hsl : List.Sublist (processingJobs s.store.queue) s.store.queue :=
      List.filter_sublist _
    exact List.Nodup.sublist (List.Sublist.map _ hsl) hInv.nodupQueue
  have hlen := (hnd.subperm hsub).length_le
  rw [List.length_map, List.length_map] at hlen
  calc (processingJobs s.store.queue).length ≤ s.inflight.length := hlen
    _ ≤ s.maxConcurrent := hInv.inflightBound
    _ = N := hmax

/-! Concrete three-step trace (enqueue, fetch, dispatch) for the claim C6
witness, with concurrency bound 2 and one job actually processing. -/

def c6S0 : MState := initState 2 [c2Post] [c2Dest]

def c6S1 : MState := enqueueState c6S0 "p1" "d1" 1

def c6Item : QueueItem :=
  { id := 0, postId := "p1", destinationId := "d1", status := QueueItemStatus.pending,
    priority := 1, retryCount := 0, maxRetries := 3, lastError := none, createdAt := 0,
    scheduledFor := none, startedAt := none, completedAt := none,
    skippedReason := none, existingRemoteId := none }

def c6S2 : MState := fetchState c6S1 c6Item

def c6S3 : MState := dispatchState c6S2 c6Item

/-- Witness for claim C6 at a reachable state with one processing job
and bound 2. -/
theorem C6_processing_bounded_witness :
    (processingJobs c6S3.store.queue).length ≤ 2 :=
  C6_processing_bounded 2 [c2Post] [c2Dest] c6S3
    (Relation.ReflTransGen.head (Step.enqueueJob c6S0 "p1" "d1" 1)
      (Relation.ReflTransGen.head
        (Step.startFetch c6S1 c6Item rfl rfl (by decide) (by decide) (by decide))
        (Relation.ReflTransGen.head (Step.dispatch c6S2 c6Item rfl)
          Relation.ReflTransGen.refl)))

/-- Claim C8 (counterexample): the claim says that after pause() no
pending job newly enters processing until resume().  In the code a
processQueue iteration that passed the pause check before the await does
not re-check it: from a fresh state, after an enqueue, a fetch, and
pause(), the paused state c8S3 has no processing job, yet one more step,
taken entirely while paused, puts the job into processing. -/

def c8S0 : MState := initState 3 [c2Post] [c2Dest]

def c8S1 : MState := enqueueState c8S0 "p1" "d1" 1

def c8Item : QueueItem :=
  { id := 0, postId := "p1", destinationId := "d1", status := QueueItemStatus.pending,
    priority := 1, retryCount := 0, maxRetries := 3, lastError := none, createdAt := 0,
    scheduledFor := none, startedAt := none, completedAt := none,
    skippedReason := none, existingRemoteId := none }

def c8S2 : MState := fetchState c8S1 c8Item

def c8S3 : MState := pauseM c8S2

def c8S4 : MState := dispatchState c8S3 c8Item

/-- Claim C8 (counterexample): a dispatch still happens after pause. -/
theorem C8_counterexample_pause_race :
    Reach c8S0 c8S3
    ∧ c8S3.paused = true
    ∧ Step c8S3 c8S4
    ∧ c8S4.paused = true
    ∧ c8S3.store.queue.any (fun a => decide (a.status = QueueItemStatus.processing)) = false
    ∧ c8S4.store.queue.any (fun a => decide (a.status = QueueItemStatus.processing)) = true := by
  refine ⟨?_, rfl, ?_, rfl, ?_, ?_⟩
  · exact Relation.ReflTransGen.head (Step.enqueueJob c8S0 "p1" "d1" 1)
      (Relation.ReflTransGen.head
        (Step.startFetch c8S1 c8Item rfl rfl (by decide) (by decide) (by decide))
        (Relation.ReflTransGen.head (Step.pauseStep c8S2) Relation.ReflTransGen.refl))
  · exact Step.dispatch c8S3 c8Item rfl
  · decide
  · decide

/-- Claim C8 (amended): pause() only prevents new pass iterations from
starting; an iteration that already passed the pause check and is
awaiting the store may dispatch one more job after pause().  When the
scheduler is paused with no such iteration in flight, no step keeping it
paused makes any job processing that was not already processing;
moreover pause() is idempotent and resume() clears the flag. -/
theorem C8_pause_gating_amended :
    (∀ s t : MState, ∀ j : QueueItem, s.paused = true → s.fetched = none →
      Step s t → t.paused = true → j ∈ t.store.queue →
      j.status = QueueItemStatus.processing →
      s.store.queue.any (fun a => decide (a.id = j.id) &&
        decide (a.status = QueueItemStatus.processing)) = true)
    ∧ (∀ s : MState, pauseM (pauseM s) = pauseM s)
    ∧ (∀ s : MState, (resumeM s).paused = false) := by
  refine ⟨?_, fun s => rfl, fun s => rfl⟩
  intro s t j hp hf hstep ht hj hjs
  cases hstep with
  | enqueueJob postId destinationId priority =>
    simp only [enqueueState, enqueue, List.mem_append, List.mem_singleton] at hj
    rcases hj with hj | rfl
    · rw [List.any_eq_true]
      exact ⟨j, hj, by simp [hjs]⟩
    · simp at hjs
  | startFetch item hpause hfetched hlen hpend hnotin =>
    rw [hp] at hpause
    exact Bool.noConfusion hpause
  | dispatch item hfd =>
    rw [hf] at hfd
    exact Option.noConfusion hfd
  | finish item factory rand hmem =>
    by_cases hji : j.id = item.id
    · exfalso
      have hj2 : j ∈ (runItemBody factory rand s.now s.store item).queue := hj
      rcases runItemBody_self_status factory rand s.now s.store item j hj2 hji
        with h | h | h <;> rw [hjs] at h <;> exact QueueItemStatus.noConfusion h
    · have hj2 : j ∈ s.store.queue :=
        (runItemBody_mem_ne factory rand s.now s.store item j hji).1 hj
      rw [List.any_eq_true]
      exact ⟨j, hj2, by simp [hjs]⟩
  | pauseStep =>
    rw [List.any_eq_true]
    exact ⟨j, hj, by simp [hjs]⟩
  | resumeStep =>
    exact Bool.noConfusion ht
  | tick =>
    rw [List.any_eq_true]
    exact ⟨j, hj, by simp [hjs]⟩

/-- The stored form of the dispatched job in the c8 trace. -/
def c8JobProc : QueueItem :=
  { c8Item with status := QueueItemStatus.processing, startedAt := some 0 }

/-- Witness for the amended claim C8: the paused post-dispatch state
c8S4 has no fetch in flight, and a tick step keeping it paused shows the
only processing job was already processing. -/
theorem C8_pause_gating_amended_witness :
    c8S4.store.queue.any (fun a => decide (a.id = c8JobProc.id) &&
      decide (a.status = QueueItemStatus.processing)) = true :=
  C8_pause_gating_amended.1 c8S4 (tickState c8S4) c8JobProc rfl rfl
    (Step.tick c8S4) rfl (by decide) rfl

end SMS
